import Mathlib

/-!
Verification of the Serial_Motor repository core logic
(src/GUI-Serial-v2.py, src/GUI-Serial.py, src/send.py).

Python strings are modelled as `List Char`, Python integers as `Int`,
file-system and serial-port effects as explicit state passing together
with environment records that say which OS-level operations succeed.
-/

namespace SerialMotor

/-- Model of the whitespace class removed by Python's default
`str.strip()`; `Char.isWhitespace` covers the ASCII whitespace that
occurs in the inputs of this development. -/
def isPyWhitespace (c : Char) : Bool := c.isWhitespace

/-- Model of Python `text.strip()`: drop whitespace from the front,
then from the back. -/
def pyStrip (s : List Char) : List Char :=
  ((s.dropWhile isPyWhitespace).reverse.dropWhile isPyWhitespace).reverse

/-- Base-10 digit accumulation over a character run; fails on the first
non-digit character. -/
def parseDigitsAux (acc : Nat) : List Char → Option Nat
  | [] => some acc
  | c :: cs =>
    if c.isDigit then parseDigitsAux (acc * 10 + (c.toNat - 48)) cs else none

/-- A non-empty run of ASCII decimal digits, as a natural number. -/
def parseDigits (cs : List Char) : Option Nat :=
  if cs = [] then none else parseDigitsAux 0 cs

/-- Core of Python `int(text)` on an already stripped string: one
optional sign followed by a non-empty run of ASCII decimal digits.
(Python additionally accepts underscore digit grouping and non-ASCII
decimal digits; no input relevant to this development uses those.) -/
def pyIntCore (t : List Char) : Option Int :=
  match t with
  | [] => none
  | c :: rest =>
    if c = '-' then (parseDigits rest).map (fun n : Nat => -(n : Int))
    else if c = '+' then (parseDigits rest).map (fun n : Nat => (n : Int))
    else (parseDigits (c :: rest)).map (fun n : Nat => (n : Int))

/-- Model of Python `int(text)`, which ignores surrounding whitespace
(so `int(text.strip())` in the validators parses the same strings). -/
def pyInt (s : List Char) : Option Int := pyIntCore (pyStrip s)

/-- The ASCII character of the decimal digit `d < 10`. -/
def digitChar (d : Nat) : Char := Char.ofNat (48 + d)

/-- Decimal digit characters of a natural number, most significant
digit first, as produced by Python `str(n)`. -/
def natDecChars (n : Nat) : List Char :=
  if n = 0 then ['0'] else (Nat.digits 10 n).reverse.map digitChar

/-- Python `str(v)` for an integer: an optional minus sign followed by
the decimal digits of the absolute value. -/
def decStr (v : Int) : List Char :=
  if v < 0 then '-' :: natDecChars v.natAbs else natDecChars v.natAbs

theorem digitChar_props (d : Nat) (h : d < 10) :
    (digitChar d).isDigit = true
    ∧ isPyWhitespace (digitChar d) = false
    ∧ (digitChar d).toNat - 48 = d
    ∧ digitChar d ≠ '-' ∧ digitChar d ≠ '+' ∧ digitChar d ≠ '\n'
    ∧ digitChar d ≠ 'i' ∧ digitChar d ≠ 'o' := by
  interval_cases d <;> exact ⟨by decide, by decide, by decide, by decide,
    by decide, by decide, by decide, by decide⟩

theorem natDecChars_mem (n : Nat) :
    ∀ c ∈ natDecChars n, ∃ d, d < 10 ∧ c = digitChar d := by
  intro c hc
  unfold natDecChars at hc
  by_cases h0 : n = 0
  · rw [if_pos h0] at hc
    simp only [List.mem_singleton] at hc
    exact ⟨0, by omega, by rw [hc]; rfl⟩
  · rw [if_neg h0] at hc
    simp only [List.mem_map, List.mem_reverse] at hc
    obtain ⟨d, hd, rfl⟩ := hc
    exact ⟨d, Nat.digits_lt_base (by norm_num) hd, rfl⟩

theorem natDecChars_ne_nil (n : Nat) : natDecChars n ≠ [] := by
  unfold natDecChars
  by_cases h0 : n = 0
  · simp [h0]
  · simp [h0, Nat.digits_ne_nil_iff_ne_zero.mpr h0]

theorem decStr_ne_nil (v : Int) : decStr v ≠ [] := by
  unfold decStr
  by_cases hv : v < 0
  · simp [hv]
  · simp [hv, natDecChars_ne_nil]

theorem decStr_chars (v : Int) :
    ∀ c ∈ decStr v, c = '-' ∨ ∃ d, d < 10 ∧ c = digitChar d := by
  intro c hc
  unfold decStr at hc
  by_cases hv : v < 0
  · rw [if_pos hv] at hc
    rcases List.mem_cons.mp hc with h | h
    · exact Or.inl h
    · exact Or.inr (natDecChars_mem _ c h)
  · rw [if_neg hv] at hc
    exact Or.inr (natDecChars_mem _ c hc)

theorem decStr_not_ws (v : Int) :
    ∀ c ∈ decStr v, isPyWhitespace c = false := by
  intro c hc
  rcases decStr_chars v c hc with h | ⟨d, hd, rfl⟩
  · rw [h]; decide
  · exact (digitChar_props d hd).2.1

theorem newline_not_mem_decStr (v : Int) : '\n' ∉ decStr v := by
  intro hc
  rcases decStr_chars v _ hc with h | ⟨d, hd, h⟩
  · exact absurd h (by decide)
  · exact (digitChar_props d hd).2.2.2.2.2.1 h.symm

theorem dropWhile_append_of_all {p : Char → Bool} (pre l : List Char)
    (h : ∀ c ∈ pre, p c = true) :
    (pre ++ l).dropWhile p = l.dropWhile p := by
  induction pre with
  | nil => simp
  | cons c cs ih =>
    rw [List.cons_append, List.dropWhile_cons, if_pos (h c (by simp))]
    exact ih (fun x hx => h x (by simp [hx]))

theorem dropWhile_eq_self_of_all {p : Char → Bool} (l : List Char)
    (hne : l ≠ []) (h : ∀ c ∈ l, p c = false) : l.dropWhile p = l := by
  obtain ⟨c, cs, rfl⟩ := List.exists_cons_of_ne_nil hne
  rw [List.dropWhile_cons, if_neg (by simp [h c (by simp)])]

theorem pyStrip_pad (ws1 ws2 mid : List Char)
    (h1 : ∀ c ∈ ws1, isPyWhitespace c = true)
    (h2 : ∀ c ∈ ws2, isPyWhitespace c = true)
    (hm : ∀ c ∈ mid, isPyWhitespace c = false)
    (hne : mid ≠ []) :
    pyStrip (ws1 ++ mid ++ ws2) = mid := by
  unfold pyStrip
  rw [List.append_assoc, dropWhile_append_of_all ws1 _ h1]
  have hmid : (mid ++ ws2).dropWhile isPyWhitespace = mid ++ ws2 := by
    obtain ⟨c, cs, rfl⟩ := List.exists_cons_of_ne_nil hne
    rw [List.cons_append, List.dropWhile_cons,
      if_neg (by simp [hm c (by simp)])]
  rw [hmid, List.reverse_append,
    dropWhile_append_of_all _ _ (fun c hc => h2 c (List.mem_reverse.mp hc)),
    dropWhile_eq_self_of_all _ (by simp [hne])
      (fun c hc => hm c (List.mem_reverse.mp hc)),
    List.reverse_reverse]

theorem pyStrip_decStr (v : Int) : pyStrip (decStr v) = decStr v := by
  have h := pyStrip_pad [] [] (decStr v) (by simp) (by simp)
    (decStr_not_ws v) (decStr_ne_nil v)
  simpa using h

theorem parseDigitsAux_all_digits (cs : List Char)
    (h : ∀ c ∈ cs, c.isDigit = true) (acc : Nat) :
    parseDigitsAux acc cs =
      some (cs.foldl (fun a c => a * 10 + (c.toNat - 48)) acc) := by
  induction cs generalizing acc with
  | nil => rfl
  | cons c cs ih =>
    rw [parseDigitsAux, if_pos (h c (by simp)), List.foldl_cons]
    exact ih (fun x hx => h x (by simp [hx])) _

theorem foldr_eq_ofDigits (l : List Nat) :
    l.foldr (fun d a => a * 10 + d) 0 = Nat.ofDigits 10 l := by
  induction l with
  | nil => simp [Nat.ofDigits]
  | cons d l ih =>
    rw [List.foldr_cons, ih, Nat.ofDigits_cons]
    ring

theorem parseDigits_natDecChars (n : Nat) :
    parseDigits (natDecChars n) = some n := by
  by_cases h0 : n = 0
  · subst h0; decide
  · have hdig : ∀ c ∈ natDecChars n, c.isDigit = true := by
      intro c hc
      obtain ⟨d, hd, rfl⟩ := natDecChars_mem n c hc
      exact (digitChar_props d hd).1
    rw [parseDigits, if_neg (by simp [natDecChars_ne_nil n]),
      parseDigitsAux_all_digits _ hdig 0]
    congr 1
    conv_lhs => rw [natDecChars, if_neg h0]
    rw [List.foldl_map]
    rw [List.foldl_ext (g := fun a d => a * 10 + d) _ 0 (by
      intro a d hd
      have hdm : d ∈ Nat.digits 10 n := List.mem_reverse.mp hd
      rw [(digitChar_props d (Nat.digits_lt_base (by norm_num) hdm)).2.2.1])]
    rw [List.foldl_reverse]
    have : ∀ l : List Nat, l.foldr (fun x y => y * 10 + x) 0 =
        l.foldr (fun d a => a * 10 + d) 0 := fun l => rfl
    rw [this, foldr_eq_ofDigits, Nat.ofDigits_digits]

theorem pyIntCore_decStr (v : Int) : pyIntCore (decStr v) = some v := by
  unfold decStr
  by_cases hv : v < 0
  · rw [if_pos hv]
    show pyIntCore ('-' :: natDecChars v.natAbs) = some v
    rw [pyIntCore, if_pos rfl, parseDigits_natDecChars]
    rw [Option.map_some']
    congr 1
    omega
  · rw [if_neg hv]
    obtain ⟨c, cs, hcs⟩ :=
      List.exists_cons_of_ne_nil (natDecChars_ne_nil v.natAbs)
    have hcmem : c ∈ natDecChars v.natAbs := by rw [hcs]; simp
    obtain ⟨d, hd, hcd⟩ := natDecChars_mem _ c hcmem
    have hprops := digitChar_props d hd
    rw [hcs, pyIntCore, if_neg (hcd ▸ hprops.2.2.2.1),
      if_neg (hcd ▸ hprops.2.2.2.2.1), ← hcs, parseDigits_natDecChars]
    rw [Option.map_some']
    congr 1
    omega

theorem pyInt_pad (v : Int) (ws1 ws2 : List Char)
    (h1 : ∀ c ∈ ws1, isPyWhitespace c = true)
    (h2 : ∀ c ∈ ws2, isPyWhitespace c = true) :
    pyInt (ws1 ++ decStr v ++ ws2) = some v := by
  unfold pyInt
  rw [pyStrip_pad ws1 ws2 (decStr v) h1 h2 (decStr_not_ws v) (decStr_ne_nil v),
    pyIntCore_decStr]

/-! ## Validator (ValidationHelper in GUI-Serial-v2.py / GUI-Serial.py) -/

def PWM_MIN_VALUE : Int := -25000

def PWM_MAX_VALUE : Int := 25000

def ROBOMAS_MIN_VALUE : Int := -10000

def ROBOMAS_MAX_VALUE : Int := 10000

/-- The `except ValueError` message of the scalar PWM and Robomas
validators. -/
def invalidValueMsg : String := "Invalid value (must be integer)"

/-- The out-of-range message of `validate_pwm_value`, with the constant
values of the format string substituted. -/
def pwmOutOfRangeMsg : String := "Value out of range (-25000~25000)"

/-- The out-of-range message of `validate_robomas_value`, with the
constant values of the format string substituted. -/
def robomasOutOfRangeMsg : String := "Value out of range (-10000~10000)"

/-- ValidationHelper.validate_pwm_value: `int(value.strip())`, then the
closed range check against PWM_MIN_VALUE/PWM_MAX_VALUE. -/
def validate_pwm_value (value : List Char) : Bool × Option Int × String :=
  match pyInt value with
  | none => (false, none, invalidValueMsg)
  | some v =>
    if PWM_MIN_VALUE ≤ v ∧ v ≤ PWM_MAX_VALUE then (true, some v, "")
    else (false, none, pwmOutOfRangeMsg)

/-- ValidationHelper.validate_robomas_value: same shape with the
Robomas range. -/
def validate_robomas_value (value : List Char) : Bool × Option Int × String :=
  match pyInt value with
  | none => (false, none, invalidValueMsg)
  | some v =>
    if ROBOMAS_MIN_VALUE ≤ v ∧ v ≤ ROBOMAS_MAX_VALUE then (true, some v, "")
    else (false, none, robomasOutOfRangeMsg)

/-- Loop body of ValidationHelper.validate_pwm_values, carrying the
enumerate index `i`; the Python loop returns on the first failure, which
the recursion renders by passing errors through unchanged. -/
def validate_pwm_values_from (i : Nat) :
    List (List Char) → Bool × Option (List Int) × String
  | [] => (true, some [], "")
  | value :: rest =>
    let r := validate_pwm_value value
    if r.1 = false then
      (false, none, "PWM[" ++ toString i ++ "]: " ++ r.2.2)
    else
      match validate_pwm_values_from (i + 1) rest with
      | (true, some vs, m) => (true, some (r.2.1.getD 0 :: vs), m)
      | e => e

/-- ValidationHelper.validate_pwm_values. -/
def validate_pwm_values (values : List (List Char)) :
    Bool × Option (List Int) × String :=
  validate_pwm_values_from 0 values

/-- Loop body of ValidationHelper.validate_robomas_values: an element
that is empty after strip becomes the value 0 without consulting the
scalar validator. -/
def validate_robomas_values_from (i : Nat) :
    List (List Char) → Bool × Option (List Int) × String
  | [] => (true, some [], "")
  | value :: rest =>
    if pyStrip value = [] then
      match validate_robomas_values_from (i + 1) rest with
      | (true, some vs, m) => (true, some (0 :: vs), m)
      | e => e
    else
      let r := validate_robomas_value value
      if r.1 = false then
        (false, none, "Robomas[" ++ toString i ++ "]: " ++ r.2.2)
      else
        match validate_robomas_values_from (i + 1) rest with
        | (true, some vs, m) => (true, some (r.2.1.getD 0 :: vs), m)
        | e => e

/-- ValidationHelper.validate_robomas_values. -/
def validate_robomas_values (values : List (List Char)) :
    Bool × Option (List Int) × String :=
  validate_robomas_values_from 0 values

/-- C1: for every integer v in [-25000, 25000], validate_pwm_value on
the decimal string of v, padded by arbitrary surrounding whitespace,
succeeds with value v; for every v outside the range it fails with the
out-of-range error message. -/
theorem claim_C1 (v : Int) (ws1 ws2 : List Char)
    (h1 : ∀ c ∈ ws1, isPyWhitespace c = true)
    (h2 : ∀ c ∈ ws2, isPyWhitespace c = true) :
    (-25000 ≤ v ∧ v ≤ 25000 →
      validate_pwm_value (ws1 ++ decStr v ++ ws2) = (true, some v, ""))
    ∧ ((v < -25000 ∨ 25000 < v) →
      validate_pwm_value (ws1 ++ decStr v ++ ws2) =
        (false, none, pwmOutOfRangeMsg)) := by
  have hp := pyInt_pad v ws1 ws2 h1 h2
  have hval : validate_pwm_value (ws1 ++ decStr v ++ ws2) =
      if PWM_MIN_VALUE ≤ v ∧ v ≤ PWM_MAX_VALUE then (true, some v, "")
      else (false, none, pwmOutOfRangeMsg) := by
    unfold validate_pwm_value
    rw [hp]
  rw [hval]
  constructor
  · intro hr
    rw [if_pos (show PWM_MIN_VALUE ≤ v ∧ v ≤ PWM_MAX_VALUE by
      unfold PWM_MIN_VALUE PWM_MAX_VALUE; omega)]
  · intro hr
    rw [if_neg (show ¬(PWM_MIN_VALUE ≤ v ∧ v ≤ PWM_MAX_VALUE) by
      unfold PWM_MIN_VALUE PWM_MAX_VALUE; omega)]

/-- Witness for C1: both branches at concrete inputs. -/
theorem claim_C1_witness :
    validate_pwm_value ([' '] ++ decStr 123 ++ [' ', '\t']) =
      (true, some 123, "")
    ∧ validate_pwm_value ([] ++ decStr (-25001) ++ []) =
      (false, none, pwmOutOfRangeMsg) :=
  ⟨(claim_C1 123 [' '] [' ', '\t'] (by decide) (by decide)).1 (by decide),
   (claim_C1 (-25001) [] [] (by simp) (by simp)).2 (by decide)⟩

/-- C2 counterexample: the scalar Robomas validator rejects the empty
string (and the whitespace-only string) with the invalid-integer error
instead of succeeding with value 0. -/
theorem claim_C2_counterexample :
    ¬((validate_robomas_value []).1 = true
      ∧ (validate_robomas_value []).2.1 = some 0)
    ∧ validate_robomas_value [] = (false, none, invalidValueMsg)
    ∧ validate_robomas_value [' ', ' ', ' '] =
      (false, none, invalidValueMsg) := by
  refine ⟨by decide, by decide, by decide⟩

/-- C2 amended: the scalar validate_robomas_value fails on every string
that strips to empty with the invalid-integer error; the empty-means-
zero rule lives in the list validator validate_robomas_values, whose
elements that strip to empty become 0 — in particular a list of n
empty-after-strip strings validates to n zeros. -/
theorem claim_C2_amended (s : List Char) (h : pyStrip s = []) :
    validate_robomas_value s = (false, none, invalidValueMsg)
    ∧ ∀ n : Nat, validate_robomas_values (List.replicate n s) =
        (true, some (List.replicate n 0), "") := by
  constructor
  · unfold validate_robomas_value pyInt
    rw [h]
    rfl
  · intro n
    unfold validate_robomas_values
    have key : ∀ m i, validate_robomas_values_from i (List.replicate m s) =
        (true, some (List.replicate m 0), "") := by
      intro m
      induction m with
      | zero => intro i; rfl
      | succ k ih =>
        intro i
        rw [List.replicate_succ, validate_robomas_values_from, if_pos h, ih]
        rfl
    exact key n 0

/-- Witness for C2 amended: the scalar rejects a whitespace-only string
and the 8-element all-empty channel list validates to eight zeros. -/
theorem claim_C2_amended_witness :
    validate_robomas_value [' '] = (false, none, invalidValueMsg)
    ∧ validate_robomas_values (List.replicate 8 [' ']) =
        (true, some (List.replicate 8 0), "") :=
  ⟨(claim_C2_amended [' '] (by decide)).1,
   (claim_C2_amended [' '] (by decide)).2 8⟩

theorem validate_pwm_values_from_all_ok (ts : List (List Char))
    (h : ∀ s ∈ ts, (validate_pwm_value s).1 = true) (i : Nat) :
    validate_pwm_values_from i ts =
      (true, some (ts.map fun s => (validate_pwm_value s).2.1.getD 0), "") := by
  induction ts generalizing i with
  | nil => rfl
  | cons t ts ih =>
    rw [validate_pwm_values_from]
    simp only [h t (by simp)]
    rw [ih (fun s hs => h s (by simp [hs])) (i + 1), if_neg (by decide)]
    rfl

theorem validate_pwm_values_from_first_fail (pre : List (List Char))
    (bad : List Char) (rest : List (List Char))
    (hpre : ∀ s ∈ pre, (validate_pwm_value s).1 = true)
    (hbad : (validate_pwm_value bad).1 = false) (i : Nat) :
    validate_pwm_values_from i (pre ++ bad :: rest) =
      (false, none,
        "PWM[" ++ toString (i + pre.length) ++ "]: "
          ++ (validate_pwm_value bad).2.2) := by
  induction pre generalizing i with
  | nil =>
    rw [List.nil_append, validate_pwm_values_from, if_pos hbad]
    simp
  | cons t ts ih =>
    rw [List.cons_append, validate_pwm_values_from]
    simp only [hpre t (by simp)]
    rw [ih (fun s hs => hpre s (by simp [hs])) (i + 1), if_neg (by decide)]
    have harith : i + 1 + ts.length = i + (t :: ts).length := by
      simp only [List.length_cons]
      omega
    rw [harith]

/-- C4: on any list of 4 input strings, validate_pwm_values returns, at
the first failing element, an error citing that element's index and the
element's own error message with no partial value list; when every
element validates it returns the parsed values in order; and the
concrete input ["0","1","2","x"] fails citing index 3. -/
theorem claim_C4 (ts : List (List Char)) (_h4 : ts.length = 4) :
    (∀ pre bad rest, ts = pre ++ bad :: rest →
      (∀ s ∈ pre, (validate_pwm_value s).1 = true) →
      (validate_pwm_value bad).1 = false →
      validate_pwm_values ts =
        (false, none,
          "PWM[" ++ toString pre.length ++ "]: "
            ++ (validate_pwm_value bad).2.2))
    ∧ ((∀ s ∈ ts, (validate_pwm_value s).1 = true) →
      validate_pwm_values ts =
        (true, some (ts.map fun s => (validate_pwm_value s).2.1.getD 0), ""))
    ∧ validate_pwm_values [['0'], ['1'], ['2'], ['x']] =
        (false, none, "PWM[3]: " ++ invalidValueMsg) := by
  refine ⟨?_, ?_, ?_⟩
  · intro pre bad rest heq hpre hbad
    rw [validate_pwm_values, heq,
      validate_pwm_values_from_first_fail pre bad rest hpre hbad 0]
    simp
  · intro h
    rw [validate_pwm_values, validate_pwm_values_from_all_ok ts h 0]
  · decide

/-- Witness for C4: the failing-index branch applied at the concrete
input ["10", "x", "0", "0"], which fails citing index 1. -/
theorem claim_C4_witness :
    validate_pwm_values [['1', '0'], ['x'], ['0'], ['0']] =
      (false, none, "PWM[" ++ toString (List.length [['1', '0']]) ++ "]: "
        ++ (validate_pwm_value ['x']).2.2) :=
  (claim_C4 [['1', '0'], ['x'], ['0'], ['0']] (by decide)).1
    [['1', '0']] ['x'] [['0'], ['0']] (by decide) (by decide) (by decide)

/-! ## Command encoding (the wire strings built by the GUI callbacks
and by src/send.py) -/

/-- Mode-switch command sent when the donmota tab is selected. -/
def cmd_mode_donmota : List Char := ['m', 'd']

/-- Mode-switch command sent when the robomas tab is selected. -/
def cmd_mode_robomas : List Char := ['m', 'r']

/-- Start command of the Control frame and of send.py. -/
def cmd_start : List Char := ['i']

/-- Stop command of the Control frame and of send.py. -/
def cmd_stop : List Char := ['o']

/-- SerialSenderGUI._set_canid wire string, the f-string "c{cid}". -/
def cmd_set_canid (cid : Int) : List Char := 'c' :: decStr cid

/-- SerialSenderGUI._set_robomas_count wire string, "n{count}". -/
def cmd_set_robomas_count (count : Int) : List Char := 'n' :: decStr count

/-- SerialSenderGUI._send_all_pwm wire string,
"p0:{v0},p1:{v1},p2:{v2},p3:{v3}". -/
def cmd_pwm_all (v0 v1 v2 v3 : Int) : List Char :=
  "p0:".toList ++ decStr v0 ++ ",p1:".toList ++ decStr v1
    ++ ",p2:".toList ++ decStr v2 ++ ",p3:".toList ++ decStr v3

/-- SerialSenderGUI._send_all_robomas wire string,
"r0:{v0},...,r7:{v7}". -/
def cmd_robomas_all (v0 v1 v2 v3 v4 v5 v6 v7 : Int) : List Char :=
  "r0:".toList ++ decStr v0 ++ ",r1:".toList ++ decStr v1
    ++ ",r2:".toList ++ decStr v2 ++ ",r3:".toList ++ decStr v3
    ++ ",r4:".toList ++ decStr v4 ++ ",r5:".toList ++ decStr v5
    ++ ",r6:".toList ++ decStr v6 ++ ",r7:".toList ++ decStr v7

/-- SerialSenderGUI._send_value / _send_robomas_value wire string, the
bare f-string "{v}" with no trailing newline. -/
def cmd_single_value (v : Int) : List Char := decStr v

/-- src/send.py: given the value command-line argument, the bytes the
script writes to the serial port; none when the script only prints a
complaint ("Value out of range" / "Invalid value") and writes nothing.
The literal values i and o are forwarded unchanged; a numeric value in
[-25000, 25000] is written as "{v}\n" with a trailing newline. -/
def send_py_write (value : List Char) : Option (List Char) :=
  if value = ['i'] ∨ value = ['o'] then some value
  else
    match pyInt value with
    | some v =>
      if -25000 ≤ v ∧ v ≤ 25000 then some (decStr v ++ ['\n']) else none
    | none => none

/-- Does a wire command end in a newline byte? -/
def hasTrailingNewline (cmd : List Char) : Bool :=
  match cmd.getLast? with
  | some c => c = '\n'
  | none => false

theorem mem_of_getLast?_eq (l : List Char) (c : Char)
    (h : l.getLast? = some c) : c ∈ l := by
  induction l with
  | nil => simp at h
  | cons a l ih =>
    cases l with
    | nil => simp at h; simp [h]
    | cons b t =>
      rw [List.getLast?_cons_cons] at h
      exact List.mem_cons_of_mem a (ih h)

theorem hasTrailingNewline_eq_false (l : List Char) (h : '\n' ∉ l) :
    hasTrailingNewline l = false := by
  unfold hasTrailingNewline
  cases hl : l.getLast? with
  | none => rfl
  | some c =>
    have hc : c ∈ l := mem_of_getLast?_eq l c hl
    have : ¬(c = '\n') := fun he => h (he ▸ hc)
    simpa using this

theorem decStr_ne_io (v : Int) : decStr v ≠ ['i'] ∧ decStr v ≠ ['o'] := by
  constructor
  · intro he
    have : 'i' ∈ decStr v := by rw [he]; simp
    rcases decStr_chars v 'i' this with h | ⟨d, hd, h⟩
    · exact absurd h (by decide)
    · exact (digitChar_props d hd).2.2.2.2.2.2.1 h.symm
  · intro he
    have : 'o' ∈ decStr v := by rw [he]; simp
    rcases decStr_chars v 'o' this with h | ⟨d, hd, h⟩
    · exact absurd h (by decide)
    · exact (digitChar_props d hd).2.2.2.2.2.2.2 h.symm

/-- C3: the legacy single-scalar sender (src/send.py) transmits exactly
the decimal representation of the validated value followed by a trailing
newline, and no other command form — mode switches, CAN id, channel
count, PWM/Robomas channel sets, the GUI single-value f-string "{v}",
start and stop (also as sent by send.py itself) — carries a trailing
newline. -/
theorem claim_C3 (v : Int) (h : -25000 ≤ v ∧ v ≤ 25000) :
    send_py_write (decStr v) = some (decStr v ++ ['\n'])
    ∧ hasTrailingNewline (decStr v ++ ['\n']) = true
    ∧ (∀ w : Int, hasTrailingNewline (cmd_single_value w) = false)
    ∧ (∀ cid : Int, hasTrailingNewline (cmd_set_canid cid) = false)
    ∧ (∀ count : Int, hasTrailingNewline (cmd_set_robomas_count count) = false)
    ∧ (∀ a b c d : Int, hasTrailingNewline (cmd_pwm_all a b c d) = false)
    ∧ (∀ a b c d e f g k : Int,
        hasTrailingNewline (cmd_robomas_all a b c d e f g k) = false)
    ∧ hasTrailingNewline cmd_mode_donmota = false
    ∧ hasTrailingNewline cmd_mode_robomas = false
    ∧ hasTrailingNewline cmd_start = false
    ∧ hasTrailingNewline cmd_stop = false
    ∧ send_py_write ['i'] = some ['i']
    ∧ send_py_write ['o'] = some ['o'] := by
  refine ⟨?_, ?_, ?_, ?_, ?_, ?_, ?_, by decide, by decide, by decide,
    by decide, by decide, by decide⟩
  · unfold send_py_write
    rw [if_neg (by
      intro hio
      rcases hio with he | he
      · exact (decStr_ne_io v).1 he
      · exact (decStr_ne_io v).2 he)]
    rw [pyInt, pyStrip_decStr, pyIntCore_decStr]
    show (if -25000 ≤ v ∧ v ≤ 25000 then some (decStr v ++ ['\n'])
      else none) = some (decStr v ++ ['\n'])
    rw [if_pos h]
  · unfold hasTrailingNewline
    rw [List.getLast?_concat]
    rfl
  · intro w
    exact hasTrailingNewline_eq_false _ (newline_not_mem_decStr w)
  · intro cid
    refine hasTrailingNewline_eq_false _ ?_
    intro hmem
    rcases List.mem_cons.mp hmem with he | he
    · exact absurd he (by decide)
    · exact newline_not_mem_decStr cid he
  · intro count
    refine hasTrailingNewline_eq_false _ ?_
    intro hmem
    rcases List.mem_cons.mp hmem with he | he
    · exact absurd he (by decide)
    · exact newline_not_mem_decStr count he
  · intro a b c d
    refine hasTrailingNewline_eq_false _ ?_
    intro hmem
    unfold cmd_pwm_all at hmem
    simp only [List.mem_append] at hmem
    rcases hmem with ((((((h1 | h1) | h1) | h1) | h1) | h1) | h1) | h1
    all_goals first
      | exact absurd h1 (by decide)
      | exact newline_not_mem_decStr _ h1
  · intro a b c d e f g k
    refine hasTrailingNewline_eq_false _ ?_
    intro hmem
    unfold cmd_robomas_all at hmem
    simp only [List.mem_append] at hmem
    rcases hmem with
      ((((((((((((((h1 | h1) | h1) | h1) | h1) | h1) | h1) | h1) | h1)
        | h1) | h1) | h1) | h1) | h1) | h1) | h1
    all_goals first
      | exact absurd h1 (by decide)
      | exact newline_not_mem_decStr _ h1

/-- Witness for C3 at v = -123. -/
theorem claim_C3_witness :
    send_py_write (decStr (-123)) = some (decStr (-123) ++ ['\n'])
    ∧ hasTrailingNewline (cmd_single_value (-123)) = false :=
  ⟨(claim_C3 (-123) (by decide)).1,
   (claim_C3 (-123) (by decide)).2.2.1 (-123)⟩

/-! ## SerialLink (SerialManager and
SerialSenderGUI._execute_serial_operation) -/

/-- A pyserial connection object; only its is_open flag is observable
here. -/
structure SerialConn where
  is_open : Bool

/-- SerialManager: owns at most one pyserial object. -/
structure SerialMgr where
  serial_connection : Option SerialConn

/-- Fake transport recording which of the two OS-level serial
operations succeed: constructing serial.Serial(...) and write(). -/
structure Transport where
  openOk : Bool
  writeOk : Bool

/-- Is the manager currently holding an open connection? -/
def mgrOpen (m : SerialMgr) : Bool :=
  match m.serial_connection with
  | some c => c.is_open
  | none => false

/-- SerialManager.close_connection: closes the held object if it exists
and is open; otherwise does nothing. -/
def close_connection (m : SerialMgr) : SerialMgr :=
  match m.serial_connection with
  | some c =>
    if c.is_open then { serial_connection := some { is_open := false } }
    else m
  | none => m

/-- SerialManager.open_connection: rejects an empty port name, closes
any stale connection first, then constructs the new connection; when
the constructor raises, the old (now closed) object stays referenced. -/
def open_connection (t : Transport) (port : List Char) (m : SerialMgr) :
    Bool × SerialMgr :=
  if port = [] then (false, m)
  else
    let m1 := close_connection m
    if t.openOk then (true, { serial_connection := some { is_open := true } })
    else (false, m1)

/-- SerialManager.send_command: fails when no open connection is held;
write failures are caught and reported as false with no state change. -/
def send_command (t : Transport) (m : SerialMgr) : Bool :=
  match m.serial_connection with
  | some c => if c.is_open then t.writeOk else false
  | none => false

/-- SerialSenderGUI._execute_serial_operation: guard on the selected
port, open, write inside try, unconditionally close in the finally
block. The command argument only flows into write, which the fake
transport abstracts. -/
def execute_serial_operation (t : Transport) (port _command : List Char)
    (m : SerialMgr) : Bool × SerialMgr :=
  if port = [] then (false, m)
  else
    match open_connection t port m with
    | (false, m1) => (false, m1)
    | (true, m1) =>
      let ok := send_command t m1
      (ok, close_connection m1)

/-- C5: a logical send never leaves the serial connection open on any
path — whenever a port is given (or no stale open handle was held), the
state after _execute_serial_operation holds no open connection, even
when the write fails after a successful open; and a send only reports
success when both the open and the write succeeded. -/
theorem claim_C5 (t : Transport) (port command : List Char) (m : SerialMgr)
    (h : port ≠ [] ∨ mgrOpen m = false) :
    mgrOpen (execute_serial_operation t port command m).2 = false
    ∧ ((execute_serial_operation t port command m).1 = true →
        t.openOk = true ∧ t.writeOk = true) := by
  rcases t with ⟨t1, t2⟩
  rcases m with ⟨mc⟩
  by_cases hp : port = []
  · rcases h with h | h
    · exact absurd hp h
    · subst hp
      simp only [execute_serial_operation, if_pos rfl]
      exact ⟨h, by simp⟩
  · rcases mc with _ | ⟨⟨mo⟩⟩
    · cases t1 <;> cases t2 <;>
        simp [execute_serial_operation, open_connection, close_connection,
          send_command, mgrOpen, hp]
    · cases mo <;> cases t1 <;> cases t2 <;>
        simp [execute_serial_operation, open_connection, close_connection,
          send_command, mgrOpen, hp]

/-- Witness for C5: write fails after a successful open while a stale
open handle was held; the connection still ends closed. -/
theorem claim_C5_witness :
    mgrOpen (execute_serial_operation ⟨true, false⟩ ['x'] ['i']
      ⟨some ⟨true⟩⟩).2 = false :=
  (claim_C5 ⟨true, false⟩ ['x'] ['i'] ⟨some ⟨true⟩⟩
    (Or.inl (by decide))).1

/-! ## LogLifecycle (LogManager in GUI-Serial-v2.py / GUI-Serial.py)

The observable state: the enablement flag, whether a FileHandler is
attached, whether the log file exists on disk, its byte size, and the
number of OS-level file handles this process holds on it. -/

/-- LogManager state together with the log file it manages. -/
structure LogState where
  log_enabled : Bool
  file_handler : Option Unit
  file_exists : Bool
  size : Nat
  openHandles : Nat

/-- LogManager.add_file_handler: removes and closes any handler already
attached, then attaches logging.FileHandler(path), which opens the file
in append mode, creating it (empty) when it is missing. -/
def add_file_handler (s : LogState) : LogState :=
  let s1 :=
    match s.file_handler with
    | some _ => { s with file_handler := none, openHandles := s.openHandles - 1 }
    | none => s
  { s1 with
    file_handler := some ()
    file_exists := true
    size := if s1.file_exists then s1.size else 0
    openHandles := s1.openHandles + 1 }

/-- LogManager.remove_file_handler: detaches and closes the handler if
one is attached. -/
def remove_file_handler (s : LogState) : LogState :=
  match s.file_handler with
  | some _ => { s with file_handler := none, openHandles := s.openHandles - 1 }
  | none => s

/-- LogManager.ensure_log_file_handler: reattach lazily when logging is
enabled and either no handler is attached or the file vanished. -/
def ensure_log_file_handler (s : LogState) : LogState :=
  if s.log_enabled = true ∧ (s.file_handler = none ∨ s.file_exists = false)
  then add_file_handler s
  else s

/-- A logging.info / logging.error call: the stream sink always gets
the line; the file grows only while a handler is attached. `n` is the
byte length of the formatted line (it depends on the timestamp). -/
def logWrite (n : Nat) (s : LogState) : LogState :=
  if s.file_handler.isSome then { s with size := s.size + n } else s

/-- LogManager.toggle_log_file; the checkbox variable flips log_enabled
before the command fires, so s.log_enabled is already the new value.
`n` is the length of the "Log file enabled/disabled" line. -/
def toggle_log_file (n : Nat) (s : LogState) : LogState :=
  if s.log_enabled then logWrite n (add_file_handler s)
  else logWrite n (remove_file_handler s)

/-- Environment for clear_log_file: whether the creating open(path,"w")
and the truncating open(path,"w") succeed, and the length of the
"Log file cleared" log line. -/
structure ClearEnv where
  createOk : Bool
  truncOk : Bool
  clearedLen : Nat

/-- LogManager.clear_log_file: ensure a handler first; create the file
empty when missing (failure returns False); then detach, truncate,
reattach when enabled and log the success line; when the truncating
open raises, reattach when enabled and return False. -/
def clear_log_file (e : ClearEnv) (s : LogState) : Bool × LogState :=
  let s1 := ensure_log_file_handler s
  if s1.file_exists = false ∧ e.createOk = false then (false, s1)
  else
    let s2 :=
      if s1.file_exists then s1 else { s1 with file_exists := true, size := 0 }
    let s3 := remove_file_handler s2
    if e.truncOk then
      let s4 := { s3 with file_exists := true, size := 0 }
      let s5 := if s4.log_enabled then add_file_handler s4 else s4
      (true, logWrite e.clearedLen s5)
    else
      (false, if s3.log_enabled then add_file_handler s3 else s3)

/-- Environment for delete_log_file: which OS step fails — the probing
open(path,"r") with PermissionError, os.remove with PermissionError, or
os.remove with some other OSError. -/
structure DeleteEnv where
  probePermissionError : Bool
  removePermissionError : Bool
  removeOtherError : Bool

def msgNoFile : String := "Log file does not exist."

def msgLocked : String :=
  "Log file is being used by another process. Please close any applications that might be using the log file."

/-- Constant prefix of the f-string "Permission denied: {e}...". -/
def msgPermissionDenied : String := "Permission denied"

/-- Constant prefix of the f-string "Failed to delete log file: {e}". -/
def msgDeleteFailed : String := "Failed to delete log file"

/-- LogManager.delete_log_file, returning (return value, dialog
message, state). The code detaches the handler, calls
logging.shutdown() and time.sleep(0.1) (neither changes the modelled
state), probes with a non-destructive open(path,"r"), and only then
calls os.remove; on each failure after detaching it reattaches the
handler when logging is still enabled. -/
def delete_log_file (e : DeleteEnv) (s : LogState) :
    Bool × String × LogState :=
  if s.file_exists = false then (false, msgNoFile, s)
  else
    let s1 := remove_file_handler s
    if e.probePermissionError then
      (false, msgLocked, if s1.log_enabled then add_file_handler s1 else s1)
    else if e.removePermissionError then
      (false, msgPermissionDenied,
        if s1.log_enabled then add_file_handler s1 else s1)
    else if e.removeOtherError then
      (false, msgDeleteFailed,
        if s1.log_enabled then add_file_handler s1 else s1)
    else
      (true, "", { s1 with file_exists := false, size := 0 })

/-- Round num/den to the nearest integer, ties to even (den > 0). -/
def roundTiesEven (num den : Nat) : Nat :=
  if 2 * (num % den) < den then num / den
  else if den < 2 * (num % den) then num / den + 1
  else if (num / den) % 2 = 0 then num / den else num / den + 1

/-- Python f"{num/den:.1f}" for the divisors used here. Both divisors
are powers of two, so for sizes below 2^53 the float num/den is exact
and CPython formats it by correctly-rounded conversion with ties to
even, which this computes in exact arithmetic. -/
def formatFixed1 (num den : Nat) : String :=
  toString (roundTiesEven (num * 10) den / 10) ++ "."
    ++ toString (roundTiesEven (num * 10) den % 10)

/-- LogManager.get_log_file_size. -/
def get_log_file_size (s : LogState) : String :=
  if s.file_exists then
    if s.size < 1024 then toString s.size ++ " B"
    else if s.size < 1024 * 1024 then formatFixed1 s.size 1024 ++ " KB"
    else formatFixed1 s.size (1024 * 1024) ++ " MB"
  else "N/A"

/-- C6: clear_log_file never flips the enablement flag; on success the
file exists, holds only the trailing "Log file cleared" line (zero
bytes when logging is disabled, since the line then only reaches the
stream sink), and the handler is attached exactly when logging is
enabled; with logging enabled and a working truncate it always
succeeds, file present or not (ensure_log_file_handler runs first and
creates the file); when the truncating open fails it returns False
with the handler reattached exactly when enabled; and with logging
disabled it creates a missing file empty via the explicit create
branch. -/
theorem claim_C6 (e : ClearEnv) (s : LogState) :
    (clear_log_file e s).2.log_enabled = s.log_enabled
    ∧ ((clear_log_file e s).1 = true →
        (clear_log_file e s).2.file_exists = true
        ∧ (clear_log_file e s).2.file_handler.isSome = s.log_enabled
        ∧ (clear_log_file e s).2.size =
            (if s.log_enabled then e.clearedLen else 0))
    ∧ (s.log_enabled = true → e.truncOk = true →
        (clear_log_file e s).1 = true)
    ∧ (e.truncOk = false →
        (clear_log_file e s).1 = false
        ∧ ((s.file_exists = true ∨ s.log_enabled = true ∨ e.createOk = true) →
            (clear_log_file e s).2.file_handler.isSome = s.log_enabled))
    ∧ (s.file_exists = false → s.log_enabled = false → e.createOk = true →
        e.truncOk = true →
        (clear_log_file e s).1 = true
        ∧ (clear_log_file e s).2.size = 0
        ∧ (clear_log_file e s).2.file_exists = true) := by
  rcases e with ⟨co, tk, cl⟩
  rcases s with ⟨en, fh, ex, sz, oh⟩
  cases en <;> cases ex <;> cases co <;> cases tk <;> rcases fh with _ | ⟨⟩ <;>
    simp [clear_log_file, ensure_log_file_handler, add_file_handler,
      remove_file_handler, logWrite]

/-- Witness for C6: with logging enabled and a working truncate on a
missing file, clear succeeds. -/
theorem claim_C6_witness :
    (clear_log_file ⟨true, true, 7⟩
      ⟨true, none, false, 5, 0⟩).1 = true :=
  (claim_C6 ⟨true, true, 7⟩ ⟨true, none, false, 5, 0⟩).2.2.1 rfl rfl

/-- C7: given the file exists, delete_log_file fails with the
file-locked dialog when the probing open raises PermissionError, with
the permission-denied dialog when os.remove raises PermissionError; on
every failure path the handler ends attached exactly when logging is
enabled; and when no OS step fails it succeeds, the file is gone and
the handler stays detached. -/
theorem claim_C7 (e : DeleteEnv) (s : LogState)
    (hex : s.file_exists = true) :
    (e.probePermissionError = true →
      (delete_log_file e s).1 = false
      ∧ (delete_log_file e s).2.1 = msgLocked
      ∧ (delete_log_file e s).2.2.file_handler.isSome = s.log_enabled)
    ∧ (e.probePermissionError = false → e.removePermissionError = true →
      (delete_log_file e s).1 = false
      ∧ (delete_log_file e s).2.1 = msgPermissionDenied
      ∧ (delete_log_file e s).2.2.file_handler.isSome = s.log_enabled)
    ∧ ((delete_log_file e s).1 = false →
        (delete_log_file e s).2.2.file_handler.isSome = s.log_enabled)
    ∧ (e.probePermissionError = false → e.removePermissionError = false →
        e.removeOtherError = false →
        (delete_log_file e s).1 = true
        ∧ (delete_log_file e s).2.2.file_exists = false
        ∧ (delete_log_file e s).2.2.file_handler = none) := by
  rcases e with ⟨p1, p2, p3⟩
  rcases s with ⟨en, fh, ex, sz, oh⟩
  cases ex
  · exact absurd hex (by simp)
  · cases en <;> cases p1 <;> cases p2 <;> cases p3 <;>
      rcases fh with _ | ⟨⟩ <;>
      simp [delete_log_file, add_file_handler, remove_file_handler]

/-- Witness for C7: probe PermissionError with logging enabled — delete
fails with the locked dialog and the handler is reattached. -/
theorem claim_C7_witness :
    (delete_log_file ⟨true, false, false⟩
      ⟨true, some (), true, 9, 1⟩).2.1 = msgLocked :=
  ((claim_C7 ⟨true, false, false⟩ ⟨true, some (), true, 9, 1⟩ rfl).1
    rfl).2.1

/-- The LogFileState invariant of the spec, restated over the model:
the process holds exactly one OS handle when a handler is attached and
none otherwise, and an attached handler implies logging is enabled and
the file exists. -/
def logInvariant (s : LogState) : Prop :=
  s.openHandles = (if s.file_handler.isSome then 1 else 0)
  ∧ (s.file_handler.isSome = true →
      s.log_enabled = true ∧ s.file_exists = true)

/-- C8 counterexample: enabling logging via the toggle attaches the
file handler immediately — starting from the enabled state with no
handler and no file, toggle_log_file returns with a handler attached
(and the file created), so attachment is eager, not deferred to the
first write. -/
theorem claim_C8_counterexample :
    (toggle_log_file 1
      { log_enabled := true, file_handler := none, file_exists := false,
        size := 0, openHandles := 0 }).file_handler = some ()
    ∧ (toggle_log_file 1
      { log_enabled := true, file_handler := none, file_exists := false,
        size := 0, openHandles := 0 }).file_exists = true := by
  constructor <;> rfl

/-- C8 amended: enabling logging via the toggle eagerly attaches the
handler at once (creating the file when missing) instead of waiting for
the first write — the lazy reattachment lives separately in
ensure_log_file_handler, which the write paths call; disabling detaches
the handler; and the LogFileState invariant — at most one OS handle,
held exactly when a handler is attached, and a handler only while
logging is enabled and the file exists — is preserved by toggle,
ensure, clear and delete. -/
theorem claim_C8_amended (s : LogState) (h : logInvariant s) (n : Nat)
    (e : ClearEnv) (d : DeleteEnv) :
    (s.log_enabled = true →
      (toggle_log_file n s).file_handler.isSome = true
      ∧ (toggle_log_file n s).file_exists = true)
    ∧ (s.log_enabled = false → (toggle_log_file n s).file_handler = none)
    ∧ logInvariant (toggle_log_file n s)
    ∧ logInvariant (ensure_log_file_handler s)
    ∧ logInvariant (clear_log_file e s).2
    ∧ logInvariant (delete_log_file d s).2.2 := by
  obtain ⟨h1, h2⟩ := h
  rcases e with ⟨co, tk, cl⟩
  rcases d with ⟨p1, p2, p3⟩
  rcases s with ⟨en, fh, ex, sz, oh⟩
  rcases fh with _ | ⟨⟩
  · simp at h1
    subst h1
    cases en <;> cases ex <;> cases co <;> cases tk <;>
      cases p1 <;> cases p2 <;> cases p3 <;>
      simp [toggle_log_file, ensure_log_file_handler, clear_log_file,
        delete_log_file, add_file_handler, remove_file_handler, logWrite,
        logInvariant]
  · simp only [Option.isSome_some, if_pos rfl] at h1
    obtain ⟨hen, hex⟩ := h2 rfl
    subst h1; subst hen; subst hex
    cases co <;> cases tk <;> cases p1 <;> cases p2 <;> cases p3 <;>
      simp [toggle_log_file, ensure_log_file_handler, clear_log_file,
        delete_log_file, add_file_handler, remove_file_handler, logWrite,
        logInvariant]

/-- Witness for C8 amended: from the canonical enabled state with an
attached handler, toggling keeps a handler attached. -/
theorem claim_C8_amended_witness :
    (toggle_log_file 3 ⟨true, some (), true, 10, 1⟩).file_handler.isSome
      = true :=
  ((claim_C8_amended ⟨true, some (), true, 10, 1⟩
    ⟨rfl, fun _ => ⟨rfl, rfl⟩⟩ 3 ⟨true, true, 0⟩ ⟨false, false, false⟩).1
    rfl).1

theorem roundTiesEven_near (num den : Nat) (hd : 0 < den) :
    2 * (den * roundTiesEven num den) ≤ 2 * num + den
    ∧ 2 * num ≤ 2 * (den * roundTiesEven num den) + den := by
  have h1 : den * (num / den) + num % den = num := Nat.div_add_mod num den
  have h2 : num % den < den := Nat.mod_lt num hd
  unfold roundTiesEven
  generalize hq : num / den = q at h1 ⊢
  generalize hr : num % den = r at h1 h2 ⊢
  by_cases c1 : 2 * r < den
  · rw [if_pos c1]
    generalize den * q = M at h1 ⊢
    omega
  · rw [if_neg c1]
    by_cases c2 : den < 2 * r
    · rw [if_pos c2, Nat.mul_succ]
      generalize den * q = M at h1 ⊢
      omega
    · rw [if_neg c2]
      by_cases c3 : q % 2 = 0
      · rw [if_pos c3]
        generalize den * q = M at h1 ⊢
        omega
      · rw [if_neg c3, Nat.mul_succ]
        generalize den * q = M at h1 ⊢
        omega

/-- C9: get_log_file_size returns "N/A" when the file is missing,
"{n} B" below 1024 bytes, the tenths-rounded "{n/1024:.1f} KB" form
below 1024*1024 bytes and the "{n/(1024*1024):.1f} MB" form above —
where the displayed tenths value approximates the exact ratio to within
half a tenth (the bound below 2^53 on the MB branch is where the
Python float quotient is exact) — and the boundary inputs 1023, 1024
and 1048576 bytes give "1023 B", "1.0 KB" and "1.0 MB". -/
theorem claim_C9 (s : LogState) :
    (s.file_exists = false → get_log_file_size s = "N/A")
    ∧ (s.file_exists = true → s.size < 1024 →
        get_log_file_size s = toString s.size ++ " B")
    ∧ (s.file_exists = true → 1024 ≤ s.size → s.size < 1024 * 1024 →
        get_log_file_size s = formatFixed1 s.size 1024 ++ " KB"
        ∧ 2 * (1024 * roundTiesEven (s.size * 10) 1024)
            ≤ 2 * (s.size * 10) + 1024
        ∧ 2 * (s.size * 10)
            ≤ 2 * (1024 * roundTiesEven (s.size * 10) 1024) + 1024)
    ∧ (s.file_exists = true → 1024 * 1024 ≤ s.size → s.size < 2 ^ 53 →
        get_log_file_size s = formatFixed1 s.size (1024 * 1024) ++ " MB"
        ∧ 2 * (1024 * 1024 * roundTiesEven (s.size * 10) (1024 * 1024))
            ≤ 2 * (s.size * 10) + 1024 * 1024
        ∧ 2 * (s.size * 10)
            ≤ 2 * (1024 * 1024 * roundTiesEven (s.size * 10) (1024 * 1024))
              + 1024 * 1024)
    ∧ get_log_file_size ⟨true, none, true, 1023, 0⟩ = "1023 B"
    ∧ get_log_file_size ⟨true, none, true, 1024, 0⟩ = "1.0 KB"
    ∧ get_log_file_size ⟨true, none, true, 1048576, 0⟩ = "1.0 MB" := by
  refine ⟨?_, ?_, ?_, ?_, by decide, by decide, by decide⟩
  · intro hex
    simp [get_log_file_size, hex]
  · intro hex hs
    simp [get_log_file_size, hex, hs]
  · intro hex hs1 hs2
    have hn1 : ¬s.size < 1024 := by omega
    refine ⟨by simp [get_log_file_size, hex, hs2, hn1], ?_, ?_⟩
    · exact (roundTiesEven_near (s.size * 10) 1024 (by norm_num)).1
    · exact (roundTiesEven_near (s.size * 10) 1024 (by norm_num)).2
  · intro hex hs1 _
    have hn1 : ¬s.size < 1024 := by omega
    have hn2 : ¬s.size < 1024 * 1024 := by omega
    refine ⟨by simp [get_log_file_size, hex, hn1, hn2], ?_, ?_⟩
    · exact (roundTiesEven_near (s.size * 10) (1024 * 1024) (by norm_num)).1
    · exact (roundTiesEven_near (s.size * 10) (1024 * 1024) (by norm_num)).2

/-- Witness for C9: the KB branch at 2048 bytes displays "2.0 KB". -/
theorem claim_C9_witness :
    get_log_file_size ⟨true, none, true, 2048, 0⟩
      = formatFixed1 2048 1024 ++ " KB" :=
  ((claim_C9 ⟨true, none, true, 2048, 0⟩).2.2.1 rfl (by norm_num)
    (by norm_num)).1

/-- C10: delete_log_file on a missing file returns False with the
does-not-exist warning and the state — handler, enablement flag, and
all the rest — exactly as it was. -/
theorem claim_C10 (e : DeleteEnv) (s : LogState)
    (h : s.file_exists = false) :
    delete_log_file e s = (false, msgNoFile, s) := by
  unfold delete_log_file
  rw [if_pos h]

/-- Witness for C10: deleting with no file present, logging enabled and
a handler attached changes nothing. -/
theorem claim_C10_witness :
    delete_log_file ⟨false, false, false⟩ ⟨true, some (), false, 0, 1⟩
      = (false, msgNoFile, ⟨true, some (), false, 0, 1⟩) :=
  claim_C10 ⟨false, false, false⟩ ⟨true, some (), false, 0, 1⟩ rfl

end SerialMotor
